import Mathlib

/-!
Shallow embedding of the `SocketManager` core of the fivem-socket.io
repository (src/SocketManager.ts, types in src/types.ts, plus the relevant
branches of the FiveM adapter), together with proofs of the specification
claims about it.

Modelling conventions:
* JS `Map` objects become insertion-ordered association lists with `String`
  keys (`mapSet` mirrors `Map.set`, `mapDelete` mirrors `Map.delete`,
  `lookupKey` mirrors `Map.get`).
* JS `Set` objects of callback functions become duplicate-free `List Nat`
  of opaque callback identities (`setAdd` mirrors `Set.add`, `List.erase`
  mirrors `Set.delete`); iteration order is insertion order, as in JS.
* The socket.io `Socket` handle is modelled by its observable effects: the
  options it was created with, the set of data events carrying a wire-level
  listener (`socket.on`/`socket.off`), the payloads handed to the transport
  (`socket.emit`), and whether `socket.disconnect()` has been called.
* Asynchronous connection establishment is driven by a `HandshakeSignal`
  describing the first lifecycle event (`connect` / `connect_error`) fired
  on the freshly created socket and the time (in ms) at which it fires;
  `silent` means no lifecycle event fires before any relevant deadline.
* The source mutates connection records in place through references shared
  with the pool; the embedding updates the pool entry explicitly at the
  record's key, which coincides with the in-place mutation whenever the
  pool maps that key to the record in question (the situation in every
  scenario the claims quantify over).
-/

namespace FivemSocket

/-- Lookup (JS `Map.get`) on an insertion-ordered association list. -/
def lookupKey {α : Type} : List (String × α) → String → Option α
  | [], _ => none
  | (k', v) :: rest, k => if k' = k then some v else lookupKey rest k

/-- Insertion (JS `Map.set`): replaces the value at an existing key in place, otherwise
appends the new binding at the end (JS `Map` preserves insertion order). -/
def mapSet {α : Type} : List (String × α) → String → α → List (String × α)
  | [], k, v => [(k, v)]
  | (k', v') :: rest, k, v =>
    if k' = k then (k, v) :: rest else (k', v') :: mapSet rest k v

/-- Deletion (JS `Map.delete`): removes the binding for the key, if any. -/
def mapDelete {α : Type} : List (String × α) → String → List (String × α)
  | [], _ => []
  | (k', v') :: rest, k =>
    if k' = k then rest else (k', v') :: mapDelete rest k

/-- The keys of an association list appear at most once each
(always true of a list built by `mapSet`/`mapDelete` from empty). -/
def keysNodup {α : Type} (l : List (String × α)) : Prop :=
  (l.map Prod.fst).Nodup

instance {α : Type} (l : List (String × α)) : Decidable (keysNodup l) := by
  unfold keysNodup; infer_instance

/-- Insertion (JS `Set.add`): inserts an element not already present, at the end
(JS `Set` preserves insertion order and never holds duplicates). -/
def setAdd (s : List Nat) (x : Nat) : List Nat :=
  if x ∈ s then s else s ++ [x]

/-- The TypeScript `SocketOptions` interface (src/types.ts): every field is
optional.  Header and query values are opaque strings. -/
structure SocketOptions where
  reconnectionAttempts : Option Nat := none
  reconnectionDelay : Option Nat := none
  timeout : Option Nat := none
  autoConnect : Option Bool := none
  headers : Option (List (String × String)) := none
  params : Option (List (String × String)) := none
deriving DecidableEq

/-- The options object passed to the socket.io client factory `io(...)` in
`SocketManager.connect`. -/
structure IoClientOptions where
  reconnectionAttempts : Option Nat
  reconnectionDelay : Option Nat
  timeout : Option Nat
  autoConnect : Option Bool
  extraHeaders : Option (List (String × String))
  query : Option (List (String × String))
deriving DecidableEq

/-- Observable state of one underlying socket.io `Socket` handle. -/
structure Socket where
  /-- identity of the handle: each `io(...)` call yields a fresh one -/
  sid : Nat
  /-- the options the handle was created with -/
  opts : IoClientOptions
  /-- data events for which the manager installed a wire-level listener via
  `socket.on(event, ...)`; `socket.off(event)` removes every entry for the
  event.  Lifecycle events (`connect`, `connect_error`, `disconnect`) are
  modelled by the step functions below, not listed here. -/
  wire : List String
  /-- payloads handed to the transport by `socket.emit(event, data)`;
  payload values are opaque to the manager and modelled as `Nat` -/
  emitted : List (String × Nat)
  /-- whether `socket.disconnect()` has been called -/
  closed : Bool
deriving DecidableEq

/-- The `SocketConnection` record (src/types.ts): one pool entry.
The TypeScript field `namespace` is a Lean keyword and is named `nsp`. -/
structure SocketConnection where
  socket : Socket
  url : String
  nsp : String
  reconnectAttempts : Nat
  connected : Bool
  /-- event name to the `Set` of local callbacks registered for it -/
  listeners : List (String × List Nat)
deriving DecidableEq

/-- The `SocketManager` state: the `connections` pool plus a counter
supplying fresh socket-handle identities for the `io(...)` calls. -/
structure SocketManager where
  connections : List (String × SocketConnection)
  nextSocketId : Nat
deriving DecidableEq

/-- A manager with an empty pool. -/
def SocketManager.empty : SocketManager :=
  { connections := [], nextSocketId := 0 }

/-- The `SocketManager.defaultOptions` private field initialiser. -/
def defaultOptions : SocketOptions :=
  { reconnectionAttempts := some 3
    reconnectionDelay := some 1000
    timeout := some 5000
    autoConnect := some true
    headers := some []
    params := some [] }

/-- One field of the object spread `{ ...this.defaultOptions, ...options }`:
a key present on `options` wins, otherwise the default survives. -/
def mergeField {α : Type} (d o : Option α) : Option α :=
  match o with
  | some v => some v
  | none => d

/-- The merged options `{ ...this.defaultOptions, ...options }` computed at
the top of `SocketManager.connect`; `options` itself may be absent. -/
def mergeOptions (d : SocketOptions) (o : Option SocketOptions) : SocketOptions :=
  match o with
  | none => d
  | some o =>
    { reconnectionAttempts := mergeField d.reconnectionAttempts o.reconnectionAttempts
      reconnectionDelay := mergeField d.reconnectionDelay o.reconnectionDelay
      timeout := mergeField d.timeout o.timeout
      autoConnect := mergeField d.autoConnect o.autoConnect
      headers := mergeField d.headers o.headers
      params := mergeField d.params o.params }

/-- The argument object of the `io(url + namespace, {...})` call in
`SocketManager.connect`: the merged per-call values are forwarded to the
underlying client verbatim. -/
def ioOptions (s : SocketOptions) : IoClientOptions :=
  { reconnectionAttempts := s.reconnectionAttempts
    reconnectionDelay := s.reconnectionDelay
    timeout := s.timeout
    autoConnect := s.autoConnect
    extraHeaders := s.headers
    query := s.params }

/-- Embedding of `SocketManager.getConnectionKey`: plain string concatenation. -/
def getConnectionKey (url nsp : String) : String :=
  url ++ nsp

/-- JavaScript `x || 3` where `x` is a possibly-absent number: `undefined`
and `0` are falsy.  Used by the `connect_error` handler's threshold
`this.defaultOptions.reconnectionAttempts || 3`. -/
def orThree (o : Option Nat) : Nat :=
  match o with
  | some k => if k = 0 then 3 else k
  | none => 3

/-- The eviction threshold tested by the `connect_error` handler in
`setupConnectionHandlers`; note it reads `this.defaultOptions`, never the
per-call options. -/
def maxReconnectThreshold : Nat :=
  orThree defaultOptions.reconnectionAttempts

/-- The delay armed by `setTimeout` in `SocketManager.waitForConnection`:
`this.defaultOptions.timeout` (a `setTimeout` delay of `undefined` means 0).
It does not depend on the per-call options. -/
def waitDeadlineMs : Nat :=
  defaultOptions.timeout.getD 0

/-- The delay computed by the adapter's `socketConnect` export for its own
`Promise.race`: `(options && typeof options.timeout === 'number') ?
options.timeout : 5000`. -/
def adapterTimeoutMs (options : Option SocketOptions) : Nat :=
  match options with
  | some o => o.timeout.getD 5000
  | none => 5000

/-- Errors thrown across the `SocketManager` operation boundary. -/
inductive SocketError where
  /-- the error thrown as Connection timeout for url+namespace by `waitForConnection` -/
  | connectTimeout (key : String)
  /-- the underlying client's `connect_error` payload, re-thrown -/
  | transportError
  /-- the error thrown as Socket not connected: url+namespace by `publish` -/
  | notConnected (key : String)
deriving DecidableEq

/-- First lifecycle event fired on a freshly created socket, with the time
in ms after creation at which it fires. -/
inductive HandshakeSignal where
  | connectAt (t : Nat)
  | errorAt (t : Nat)
  | silent
deriving DecidableEq

/-- The record built in `SocketManager.connect` right after the `io(...)`
call: zero reconnect attempts, not yet connected, no listeners. -/
def freshConnection (sid : Nat) (url nsp : String) (opts : IoClientOptions) : SocketConnection :=
  { socket := { sid := sid, opts := opts, wire := [], emitted := [], closed := false }
    url := url
    nsp := nsp
    reconnectAttempts := 0
    connected := false
    listeners := [] }

/-- The socket `connect` handler installed by `setupConnectionHandlers`:
marks the record connected and resets the attempt counter. -/
def onConnect (c : SocketConnection) : SocketConnection :=
  { c with connected := true, reconnectAttempts := 0 }

/-- The socket `disconnect` handler installed by `setupConnectionHandlers`:
marks the record disconnected. -/
def onDisconnect (c : SocketConnection) : SocketConnection :=
  { c with connected := false }

/-- The socket `connect_error` handler installed by
`setupConnectionHandlers`: increments the attempt counter, marks the record
disconnected, and when the counter reaches
`this.defaultOptions.reconnectionAttempts || 3` forcibly closes the socket
and deletes the record's key from the pool.  The source mutates the record
in place; below the threshold the pool reflects the mutation exactly when
the pool entry for the key is this record, which the conditional checks. -/
def connectErrorStep (m : SocketManager) (c : SocketConnection) : SocketManager × SocketConnection :=
  let key := getConnectionKey c.url c.nsp
  let c' : SocketConnection := { c with reconnectAttempts := c.reconnectAttempts + 1, connected := false }
  if maxReconnectThreshold ≤ c'.reconnectAttempts then
    let c'' : SocketConnection := { c' with socket := { c'.socket with closed := true } }
    ({ m with connections := mapDelete m.connections key }, c'')
  else
    (if lookupKey m.connections key = some c then
      { m with connections := mapSet m.connections key c' }
    else m, c')

/-- Iteration of `connectErrorStep`: `n` consecutive `connect_error` events with
no intervening successful connect. -/
def iterateConnectErrors : Nat → SocketManager × SocketConnection → SocketManager × SocketConnection
  | 0, p => p
  | n + 1, p => iterateConnectErrors n (connectErrorStep p.1 p.2)

/-- Embedding of `SocketManager.waitForConnection`, driven by the first lifecycle signal:
if the record is already connected it resolves at once; otherwise a
`connect` before the guard deadline resolves (the `connect` handler having
updated the record), a `connect_error` before the deadline rejects with the
transport error (the `connect_error` handler having run), and in every
other case the `setTimeout` guard — armed with `this.defaultOptions.timeout`
— fires, removes the lifecycle listeners, and rejects with the connection
timeout error, leaving the record untouched. -/
def waitForConnection (m : SocketManager) (key : String) (c : SocketConnection)
    (signal : HandshakeSignal) : SocketManager × Except SocketError SocketConnection :=
  if c.connected then (m, Except.ok c)
  else
    match signal with
    | HandshakeSignal.connectAt t =>
      if t < waitDeadlineMs then
        let c' := onConnect c
        ({ m with connections := mapSet m.connections key c' }, Except.ok c')
      else (m, Except.error (SocketError.connectTimeout key))
    | HandshakeSignal.errorAt t =>
      if t < waitDeadlineMs then
        let p := connectErrorStep m c
        (p.1, Except.error SocketError.transportError)
      else (m, Except.error (SocketError.connectTimeout key))
    | HandshakeSignal.silent => (m, Except.error (SocketError.connectTimeout key))

/-- The fall-through branch of `SocketManager.connect` for a key with no
connected record: merges the options, calls `io(...)` (allocating a fresh
socket handle with the merged options), stores the fresh record in the pool
— overwriting whatever was at the key — and awaits `waitForConnection`. -/
def connectNew (m : SocketManager) (url nsp : String) (options : Option SocketOptions)
    (signal : HandshakeSignal) : SocketManager × Except SocketError SocketConnection :=
  let key := getConnectionKey url nsp
  let socketOptions := mergeOptions defaultOptions options
  let conn0 := freshConnection m.nextSocketId url nsp (ioOptions socketOptions)
  let m1 : SocketManager :=
    { connections := mapSet m.connections key conn0, nextSocketId := m.nextSocketId + 1 }
  waitForConnection m1 key conn0 signal

/-- The `existingConnection?.connected` guard shared by `connect` and
`getOrCreateConnection`: yields the pool entry only when its `connected`
flag is true. -/
def existingConnected (m : SocketManager) (key : String) : Option SocketConnection :=
  match lookupKey m.connections key with
  | some ex => if ex.connected then some ex else none
  | none => none

/-- Embedding of `SocketManager.connect`: returns the existing record if it is
connected, otherwise runs the fresh-connect sequence. -/
def connect (m : SocketManager) (url nsp : String) (options : Option SocketOptions)
    (signal : HandshakeSignal) : SocketManager × Except SocketError SocketConnection :=
  match existingConnected m (getConnectionKey url nsp) with
  | some ex => (m, Except.ok ex)
  | none => connectNew m url nsp options signal

/-- Embedding of `SocketManager.getOrCreateConnection`: same guard, then delegates to
`connect`. -/
def getOrCreateConnection (m : SocketManager) (url nsp : String)
    (options : Option SocketOptions) (signal : HandshakeSignal) :
    SocketManager × Except SocketError SocketConnection :=
  match existingConnected m (getConnectionKey url nsp) with
  | some ex => (m, Except.ok ex)
  | none => connect m url nsp options signal

/-- The listener-registry portion of `SocketManager.subscribe` (lines after
the awaited `getOrCreateConnection`): if the event has no entry, create an
empty set for it and install the single wire-level fan-out listener via
`socket.on`; then add the callback to the event's set. -/
def subscribeConn (c : SocketConnection) (event : String) (cb : Nat) : SocketConnection :=
  let c1 :=
    if (lookupKey c.listeners event).isSome then c
    else
      { c with listeners := mapSet c.listeners event []
               socket := { c.socket with wire := c.socket.wire ++ [event] } }
  match lookupKey c1.listeners event with
  | some s => { c1 with listeners := mapSet c1.listeners event (setAdd s cb) }
  | none => c1

/-- The registry portion of `SocketManager.unsubscribe`: with a callback,
remove it from the event's set and, if the set becomes empty, delete the
entry and remove the wire-level listener via `socket.off(event)`; without a
callback, delete the entry and remove the wire-level listener.  `socket.off`
removes every listener registered for the event. -/
def unsubscribeConn (c : SocketConnection) (event : String) (callback : Option Nat) : SocketConnection :=
  match callback with
  | some cb =>
    match lookupKey c.listeners event with
    | some s =>
      let s' := s.erase cb
      if s'.length = 0 then
        { c with listeners := mapDelete c.listeners event
                 socket := { c.socket with wire := c.socket.wire.filter (fun e => e != event) } }
      else { c with listeners := mapSet c.listeners event s' }
    | none => c
  | none =>
    match lookupKey c.listeners event with
    | some _ =>
      { c with listeners := mapDelete c.listeners event
               socket := { c.socket with wire := c.socket.wire.filter (fun e => e != event) } }
    | none => c

/-- Embedding of `SocketManager.subscribe`: awaits `getOrCreateConnection`, then updates
the resolved record's registry (the record the pool holds at the key). -/
def subscribe (m : SocketManager) (url nsp event : String) (cb : Nat)
    (options : Option SocketOptions) (signal : HandshakeSignal) :
    SocketManager × Except SocketError Unit :=
  match getOrCreateConnection m url nsp options signal with
  | (m', Except.error e) => (m', Except.error e)
  | (m', Except.ok conn) =>
    let conn' := subscribeConn conn event cb
    ({ m' with connections := mapSet m'.connections (getConnectionKey url nsp) conn' },
     Except.ok ())

/-- Embedding of `SocketManager.unsubscribe`: looks the key up directly (no
get-or-create); absent key returns at once with no effect.  The unused
`options` parameter mirrors the source signature. -/
def unsubscribe (m : SocketManager) (url nsp event : String) (callback : Option Nat)
    (_options : Option SocketOptions) : SocketManager :=
  let key := getConnectionKey url nsp
  match lookupKey m.connections key with
  | none => m
  | some conn =>
    { m with connections := mapSet m.connections key (unsubscribeConn conn event callback) }

/-- The send half of `SocketManager.publish`, after the awaited
`getOrCreateConnection` has resolved to `conn`: throw `Socket not
connected` when the flag is false at send time, otherwise hand the payload
to the transport with `socket.emit(event, data)`.  `emit` is fire-and-forget:
no acknowledgement from the remote side is awaited. -/
def sendOnConnection (m : SocketManager) (key : String) (conn : SocketConnection)
    (event : String) (data : Nat) : SocketManager × Except SocketError Unit :=
  if conn.connected = false then
    (m, Except.error (SocketError.notConnected key))
  else
    let conn' : SocketConnection :=
      { conn with socket := { conn.socket with emitted := conn.socket.emitted ++ [(event, data)] } }
    ({ m with connections := mapSet m.connections key conn' }, Except.ok ())

/-- Embedding of `SocketManager.publish`.  Between the awaited connection resolution and
the synchronous send-time check, the event loop may deliver a wire-level
`disconnect` notification for the resolved record; `preSendDisconnect` says
whether one arrives in that window. -/
def publish (m : SocketManager) (url nsp event : String) (data : Nat)
    (options : Option SocketOptions) (signal : HandshakeSignal)
    (preSendDisconnect : Bool) : SocketManager × Except SocketError Unit :=
  let key := getConnectionKey url nsp
  match getOrCreateConnection m url nsp options signal with
  | (m', Except.error e) => (m', Except.error e)
  | (m', Except.ok conn) =>
    if preSendDisconnect then
      let conn' := onDisconnect conn
      sendOnConnection { m' with connections := mapSet m'.connections key conn' } key conn' event data
    else
      sendOnConnection m' key conn event data

/-- Embedding of `SocketManager.disconnect`: if the key has a record, call
`socket.disconnect()` on it and delete it from the pool; otherwise do
nothing. -/
def disconnect (m : SocketManager) (url nsp : String) : SocketManager :=
  let key := getConnectionKey url nsp
  match lookupKey m.connections key with
  | none => m
  | some _ => { m with connections := mapDelete m.connections key }

/-- Embedding of `SocketManager.disconnectAll`: disconnect every socket, clear the pool. -/
def disconnectAll (m : SocketManager) : SocketManager :=
  { m with connections := [] }

/-- Structured result of a FiveM adapter export. -/
structure AdapterOutcome where
  success : Bool
  message : Option String
deriving DecidableEq

/-- The connection-existence branch of the adapter's `socketDisconnect`
export: a key with no pool record yields a non-error "nothing to
disconnect" outcome; otherwise the manager's `disconnect` runs.  URL
normalisation and validation happen upstream of this branch and are out of
scope of the claims about it. -/
def socketDisconnectExport (m : SocketManager) (url nsp : String) : SocketManager × AdapterOutcome :=
  let key := getConnectionKey url nsp
  if (lookupKey m.connections key).isNone then
    (m, { success := true, message := some "No active connection found to disconnect" })
  else
    (disconnect m url nsp, { success := true, message := none })

/-- The fan-out loop of the wire-level listener installed by `subscribe`:
`eventListeners.forEach((listener) => listener(data))`.  `throws` says which
callbacks raise when invoked; the returned list holds the callbacks that
were actually invoked (in insertion order) and the flag whether an
exception escaped the loop.  JavaScript `forEach` does not catch: a raising
callback aborts the iteration. -/
def fanOut (throws : Nat → Bool) : List Nat → List Nat × Bool
  | [] => ([], false)
  | cb :: rest =>
    if throws cb then ([cb], true)
    else
      let r := fanOut throws rest
      (cb :: r.1, r.2)

/-- Delivery of one inbound message for `event` on a connection: the wire
handler (when installed) reads the event's current listener set and fans
the message out. -/
def deliver (throws : Nat → Bool) (c : SocketConnection) (event : String) : List Nat × Bool :=
  if event ∈ c.socket.wire then
    match lookupKey c.listeners event with
    | some s => fanOut throws s
    | none => ([], false)
  else ([], false)

/-- Delivery at the pool level: the wire handler only reads the record's
listener map; it performs no pool mutation, so the manager state is
returned unchanged. -/
def deliverEvent (throws : Nat → Bool) (m : SocketManager) (key event : String) :
    SocketManager × (List Nat × Bool) :=
  match lookupKey m.connections key with
  | some c => (m, deliver throws c event)
  | none => (m, ([], false))

/-- The registry invariant of the specification: keys are unique, the
wire-listener list is duplicate-free, a wire-level listener exists for an
event exactly when the event has a (non-empty, duplicate-free) callback
set. -/
def Inv (c : SocketConnection) : Prop :=
  keysNodup c.listeners ∧ c.socket.wire.Nodup ∧
  (∀ e ∈ c.socket.wire, (lookupKey c.listeners e).isSome = true) ∧
  (∀ p ∈ c.listeners, p.1 ∈ c.socket.wire ∧ p.2 ≠ [] ∧ p.2.Nodup)

instance (c : SocketConnection) : Decidable (Inv c) := by
  unfold Inv; infer_instance

instance {ε α : Type} [DecidableEq ε] [DecidableEq α] : DecidableEq (Except ε α) :=
  fun a b =>
    match a, b with
    | Except.error e1, Except.error e2 => decidable_of_iff (e1 = e2) (by simp)
    | Except.ok v1, Except.ok v2 => decidable_of_iff (v1 = v2) (by simp)
    | Except.error _, Except.ok _ => isFalse (fun hh => Except.noConfusion hh)
    | Except.ok _, Except.error _ => isFalse (fun hh => Except.noConfusion hh)

/-! ### Concrete instances used by counterexamples and witnesses -/

/-- Per-call options carrying a reconnection attempt limit of 1. -/
def optsLimitOne : SocketOptions := { reconnectionAttempts := some 1 }

/-- The pool after a first (unanswered) connect call for http://h + / with
`optsLimitOne`. -/
def poolLimitOne : SocketManager :=
  (connect SocketManager.empty "http://h" "/" (some optsLimitOne) HandshakeSignal.silent).1

/-- The record that call stores under key http://h/. -/
def recLimitOne : SocketConnection :=
  freshConnection 0 "http://h" "/" (ioOptions (mergeOptions defaultOptions (some optsLimitOne)))

/-- Per-call options carrying a 10000 ms connect timeout. -/
def optsBigTimeout : SocketOptions := { timeout := some 10000 }

/-- A pool record that is present but not connected, holding a listener. -/
def recStale : SocketConnection :=
  { socket := { sid := 0, opts := ioOptions defaultOptions, wire := ["ev"], emitted := []
                closed := false }
    url := "http://h", nsp := "/", reconnectAttempts := 0, connected := false
    listeners := [("ev", [7])] }

/-- A pool holding `recStale` under its key. -/
def poolStale : SocketManager := { connections := [("http://h/", recStale)], nextSocketId := 1 }

/-- The record `getOrCreateConnection` hands back on `poolStale` when the
replacement socket's handshake succeeds immediately. -/
def recReplacement : SocketConnection :=
  onConnect (freshConnection 1 "http://h" "/" (ioOptions defaultOptions))

/-- A connected record with callbacks 1 and 2 registered for event ev. -/
def recFan : SocketConnection :=
  { socket := { sid := 0, opts := ioOptions defaultOptions, wire := ["ev"], emitted := []
                closed := false }
    url := "u", nsp := "/", reconnectAttempts := 0, connected := true
    listeners := [("ev", [1, 2])] }

/-- A connected record with an empty registry. -/
def recLive : SocketConnection :=
  { socket := { sid := 0, opts := ioOptions defaultOptions, wire := [], emitted := []
                closed := false }
    url := "u", nsp := "/", reconnectAttempts := 0, connected := true, listeners := [] }

/-- A pool holding `recLive` under its key u/. -/
def poolLive : SocketManager := { connections := [("u/", recLive)], nextSocketId := 1 }

/-- A connected record whose endpoint pair is http://h/a with namespace /b,
stored under the concatenated key. -/
def recAmbig : SocketConnection :=
  { socket := { sid := 0, opts := ioOptions defaultOptions, wire := [], emitted := []
                closed := false }
    url := "http://h/a", nsp := "/b", reconnectAttempts := 0, connected := true, listeners := [] }

/-- A pool holding `recAmbig` under the concatenated key. -/
def poolAmbig : SocketManager :=
  { connections := [("http://h/a/b", recAmbig)], nextSocketId := 1 }

/-- A fresh unconnected record used as a witness starting state. -/
def recFresh : SocketConnection := freshConnection 0 "u" "/" (ioOptions defaultOptions)

/-- The record `recFresh` after one subscription of callback 5 on ev. -/
def recOneSub : SocketConnection := subscribeConn recFresh "ev" 5

/-- A pool holding `recFresh` under its key, for the eviction witness. -/
def poolFresh : SocketManager := { connections := [("u/", recFresh)], nextSocketId := 1 }

/-! ### Association-list and set lemmas -/

theorem lookupKey_mapSet_self {α : Type} (l : List (String × α)) (k : String) (v : α) :
    lookupKey (mapSet l k v) k = some v := by
  induction l with
  | nil => simp [mapSet, lookupKey]
  | cons p rest ih =>
    obtain ⟨k', v'⟩ := p
    by_cases h : k' = k
    · simp [mapSet, h, lookupKey]
    · simp [mapSet, h, lookupKey, ih]

theorem lookupKey_mapSet_ne {α : Type} (l : List (String × α)) {k k' : String} (v : α)
    (h : k' ≠ k) : lookupKey (mapSet l k v) k' = lookupKey l k' := by
  induction l with
  | nil => simp [mapSet, lookupKey, Ne.symm h]
  | cons p rest ih =>
    obtain ⟨k'', v''⟩ := p
    by_cases hk : k'' = k
    · subst hk
      simp [mapSet, lookupKey, Ne.symm h]
    · simp [mapSet, hk, lookupKey, ih]

theorem mem_of_lookupKey {α : Type} {l : List (String × α)} {k : String} {v : α}
    (h : lookupKey l k = some v) : (k, v) ∈ l := by
  induction l with
  | nil => simp [lookupKey] at h
  | cons p rest ih =>
    obtain ⟨k', v'⟩ := p
    by_cases hk : k' = k
    · subst hk
      simp [lookupKey] at h
      simp [h]
    · simp [lookupKey, hk] at h
      exact List.mem_cons_of_mem _ (ih h)

theorem lookupKey_eq_none_iff {α : Type} {l : List (String × α)} {k : String} :
    lookupKey l k = none ↔ k ∉ l.map Prod.fst := by
  induction l with
  | nil => simp [lookupKey]
  | cons p rest ih =>
    obtain ⟨k', v'⟩ := p
    by_cases hk : k' = k
    · subst hk
      simp [lookupKey]
    · simp only [lookupKey, if_neg hk, List.map_cons, List.mem_cons, ih]
      constructor
      · intro h hm
        rcases hm with hm | hm
        · exact hk hm.symm
        · exact h hm
      · intro h hm
        exact h (Or.inr hm)

theorem lookupKey_isSome_of_keys_mem {α : Type} {l : List (String × α)} {k : String}
    (h : k ∈ l.map Prod.fst) : (lookupKey l k).isSome = true := by
  cases hl : lookupKey l k with
  | none => exact absurd h (lookupKey_eq_none_iff.mp hl)
  | some v => rfl

theorem keys_mapSet_of_mem {α : Type} {l : List (String × α)} {k : String} (v : α)
    (h : k ∈ l.map Prod.fst) : (mapSet l k v).map Prod.fst = l.map Prod.fst := by
  induction l with
  | nil => simp at h
  | cons p rest ih =>
    obtain ⟨k', v'⟩ := p
    by_cases hk : k' = k
    · subst hk; simp [mapSet]
    · simp only [List.map_cons, List.mem_cons] at h
      have hmem : k ∈ rest.map Prod.fst := by
        rcases h with h' | h'
        · exact absurd h'.symm hk
        · exact h'
      simp [mapSet, hk, ih hmem]

theorem keys_mapSet_of_notMem {α : Type} {l : List (String × α)} {k : String} (v : α)
    (h : k ∉ l.map Prod.fst) : (mapSet l k v).map Prod.fst = l.map Prod.fst ++ [k] := by
  induction l with
  | nil => simp [mapSet]
  | cons p rest ih =>
    obtain ⟨k', v'⟩ := p
    simp only [List.map_cons, List.mem_cons, not_or] at h
    simp [mapSet, Ne.symm h.1, ih h.2]

theorem mem_mapSet {α : Type} {l : List (String × α)} {k : String} {v : α} {p : String × α}
    (h : p ∈ mapSet l k v) : p = (k, v) ∨ p ∈ l := by
  induction l with
  | nil => simp [mapSet] at h; simp [h]
  | cons q rest ih =>
    obtain ⟨k', v'⟩ := q
    by_cases hk : k' = k
    · subst hk
      simp [mapSet] at h
      rcases h with h | h
      · exact Or.inl h
      · exact Or.inr (List.mem_cons_of_mem _ h)
    · simp [mapSet, hk] at h
      rcases h with h | h
      · exact Or.inr (by simp [h])
      · rcases ih h with h' | h'
        · exact Or.inl h'
        · exact Or.inr (List.mem_cons_of_mem _ h')

theorem mapSet_mapSet {α : Type} (l : List (String × α)) (k : String) (v w : α) :
    mapSet (mapSet l k v) k w = mapSet l k w := by
  induction l with
  | nil => simp [mapSet]
  | cons p rest ih =>
    obtain ⟨k', v'⟩ := p
    by_cases hk : k' = k
    · subst hk; simp [mapSet]
    · simp [mapSet, hk, ih]

theorem mapSet_of_lookupKey_self {α : Type} {l : List (String × α)} {k : String} {v : α}
    (h : lookupKey l k = some v) : mapSet l k v = l := by
  induction l with
  | nil => simp [lookupKey] at h
  | cons p rest ih =>
    obtain ⟨k', v'⟩ := p
    by_cases hk : k' = k
    · subst hk
      simp [lookupKey] at h
      simp [mapSet, h]
    · simp [lookupKey, hk] at h
      simp [mapSet, hk, ih h]

theorem nodup_append_singleton {α : Type} {l : List α} {x : α} (h : l.Nodup) (hx : x ∉ l) :
    (l ++ [x]).Nodup := by
  rw [List.nodup_append]
  refine ⟨h, List.nodup_singleton x, ?_⟩
  intro a ha hb
  rw [List.mem_singleton] at hb
  subst hb
  exact hx ha

theorem keysNodup_mapSet {α : Type} {l : List (String × α)} {k : String} (v : α)
    (h : keysNodup l) : keysNodup (mapSet l k v) := by
  by_cases hk : k ∈ l.map Prod.fst
  · unfold keysNodup
    rw [keys_mapSet_of_mem v hk]
    exact h
  · unfold keysNodup
    rw [keys_mapSet_of_notMem v hk]
    exact nodup_append_singleton h hk

theorem mem_mapDelete {α : Type} {l : List (String × α)} {k : String} {p : String × α}
    (h : p ∈ mapDelete l k) : p ∈ l := by
  induction l with
  | nil => simp [mapDelete] at h
  | cons q rest ih =>
    obtain ⟨k', v'⟩ := q
    by_cases hk : k' = k
    · simp [mapDelete, hk] at h
      exact List.mem_cons_of_mem _ h
    · simp [mapDelete, hk] at h
      rcases h with h | h
      · simp [h]
      · exact List.mem_cons_of_mem _ (ih h)

theorem keys_mem_of_mem_mapDelete {α : Type} {l : List (String × α)} {k e : String}
    (h : e ∈ (mapDelete l k).map Prod.fst) : e ∈ l.map Prod.fst := by
  simp only [List.mem_map] at h ⊢
  obtain ⟨p, hp, he⟩ := h
  exact ⟨p, mem_mapDelete hp, he⟩

theorem keysNodup_mapDelete {α : Type} {l : List (String × α)} (k : String)
    (h : keysNodup l) : keysNodup (mapDelete l k) := by
  induction l with
  | nil => simp [mapDelete, keysNodup]
  | cons p rest ih =>
    obtain ⟨k', v'⟩ := p
    unfold keysNodup at h
    rw [List.map_cons, List.nodup_cons] at h
    by_cases hk : k' = k
    · unfold keysNodup
      simp only [mapDelete, if_pos hk]
      exact h.2
    · unfold keysNodup
      simp only [mapDelete, if_neg hk, List.map_cons, List.nodup_cons]
      exact ⟨fun hmem => h.1 (keys_mem_of_mem_mapDelete hmem), ih h.2⟩

theorem mem_mapDelete_of_keysNodup {α : Type} {l : List (String × α)} {k : String}
    {p : String × α} (hn : keysNodup l) (h : p ∈ mapDelete l k) : p ∈ l ∧ p.1 ≠ k := by
  induction l with
  | nil => simp [mapDelete] at h
  | cons q rest ih =>
    obtain ⟨k', v'⟩ := q
    unfold keysNodup at hn
    rw [List.map_cons, List.nodup_cons] at hn
    by_cases hk : k' = k
    · subst hk
      have h' : p ∈ rest := by simpa [mapDelete] using h
      refine ⟨List.mem_cons_of_mem _ h', ?_⟩
      intro hpk
      have hmap : p.1 ∈ rest.map Prod.fst := List.mem_map_of_mem Prod.fst h'
      rw [hpk] at hmap
      exact hn.1 hmap
    · simp only [mapDelete, if_neg hk, List.mem_cons] at h
      rcases h with h | h
      · exact ⟨by simp [h], by simp [h, hk]⟩
      · obtain ⟨h1, h2⟩ := ih hn.2 h
        exact ⟨List.mem_cons_of_mem _ h1, h2⟩

theorem lookupKey_mapDelete_ne {α : Type} (l : List (String × α)) {k k' : String}
    (h : k' ≠ k) : lookupKey (mapDelete l k) k' = lookupKey l k' := by
  induction l with
  | nil => simp [mapDelete]
  | cons p rest ih =>
    obtain ⟨k'', v''⟩ := p
    by_cases hk : k'' = k
    · subst hk
      simp [mapDelete, lookupKey, Ne.symm h]
    · simp [mapDelete, hk, lookupKey, ih]

theorem lookupKey_mapDelete_self {α : Type} {l : List (String × α)} {k : String}
    (hn : keysNodup l) : lookupKey (mapDelete l k) k = none := by
  rw [lookupKey_eq_none_iff]
  intro hmem
  simp only [List.mem_map] at hmem
  obtain ⟨p, hp, he⟩ := hmem
  obtain ⟨_, hne⟩ := mem_mapDelete_of_keysNodup hn hp
  exact hne he

theorem mapDelete_mapSet {α : Type} (l : List (String × α)) (k : String) (v : α) :
    mapDelete (mapSet l k v) k = mapDelete l k := by
  induction l with
  | nil => simp [mapSet, mapDelete]
  | cons p rest ih =>
    obtain ⟨k', v'⟩ := p
    by_cases hk : k' = k
    · subst hk; simp [mapSet, mapDelete]
    · simp [mapSet, mapDelete, hk, ih]

theorem mem_setAdd_self (s : List Nat) (x : Nat) : x ∈ setAdd s x := by
  unfold setAdd
  by_cases h : x ∈ s
  · simp [h]
  · simp [h]

theorem mem_setAdd_iff {s : List Nat} {x y : Nat} : y ∈ setAdd s x ↔ y ∈ s ∨ y = x := by
  unfold setAdd
  by_cases h : x ∈ s
  · simp [h]
    intro hy; subst hy; exact h
  · simp [h]

theorem setAdd_nodup {s : List Nat} (x : Nat) (h : s.Nodup) : (setAdd s x).Nodup := by
  unfold setAdd
  by_cases hx : x ∈ s
  · simp [hx, h]
  · simp only [hx, if_false]
    exact nodup_append_singleton h hx

theorem setAdd_ne_nil (s : List Nat) (x : Nat) : setAdd s x ≠ [] := by
  unfold setAdd
  by_cases hx : x ∈ s
  · simp [hx]
    intro hnil
    subst hnil
    simp at hx
  · simp [hx]

theorem setAdd_of_mem {s : List Nat} {x : Nat} (h : x ∈ s) : setAdd s x = s := by
  simp [setAdd, h]

/-! ### Fan-out lemmas -/

theorem fanOut_of_noThrow {throws : Nat → Bool} :
    ∀ {s : List Nat}, (∀ x ∈ s, throws x = false) → fanOut throws s = (s, false) := by
  intro s
  induction s with
  | nil => intro _; rfl
  | cons cb rest ih =>
    intro h
    have hcb : throws cb = false := h cb (by simp)
    have hrest := ih (fun x hx => h x (List.mem_cons_of_mem _ hx))
    simp [fanOut, hcb, hrest]

theorem fanOut_stops_at_throw {throws : Nat → Bool} {bad : Nat} (s2 : List Nat)
    (hbad : throws bad = true) :
    ∀ {s1 : List Nat}, (∀ x ∈ s1, throws x = false) →
      fanOut throws (s1 ++ bad :: s2) = (s1 ++ [bad], true) := by
  intro s1
  induction s1 with
  | nil => intro _; simp [fanOut, hbad]
  | cons cb rest ih =>
    intro h
    have hcb : throws cb = false := h cb (by simp)
    have hrest := ih (fun x hx => h x (List.mem_cons_of_mem _ hx))
    simp [fanOut, hcb, hrest]

/-! ### Characterisations of the registry operations -/

theorem subscribeConn_of_some {c : SocketConnection} {event : String} {s : List Nat} (cb : Nat)
    (h : lookupKey c.listeners event = some s) :
    subscribeConn c event cb = { c with listeners := mapSet c.listeners event (setAdd s cb) } := by
  unfold subscribeConn
  simp [h]

theorem subscribeConn_of_none {c : SocketConnection} {event : String} (cb : Nat)
    (h : lookupKey c.listeners event = none) :
    subscribeConn c event cb =
      { c with listeners := mapSet c.listeners event [cb]
               socket := { c.socket with wire := c.socket.wire ++ [event] } } := by
  unfold subscribeConn
  simp only [h, Option.isSome_none, Bool.false_eq_true, if_false, lookupKey_mapSet_self,
    mapSet_mapSet]
  rfl

theorem unsubscribeConn_cb_empty {c : SocketConnection} {event : String} {s : List Nat} {cb : Nat}
    (h : lookupKey c.listeners event = some s) (he : (s.erase cb).length = 0) :
    unsubscribeConn c event (some cb) =
      { c with listeners := mapDelete c.listeners event
               socket := { c.socket with wire := c.socket.wire.filter (fun e => e != event) } } := by
  unfold unsubscribeConn
  simp [h, he]

theorem unsubscribeConn_cb_keep {c : SocketConnection} {event : String} {s : List Nat} {cb : Nat}
    (h : lookupKey c.listeners event = some s) (hne : (s.erase cb).length ≠ 0) :
    unsubscribeConn c event (some cb) =
      { c with listeners := mapSet c.listeners event (s.erase cb) } := by
  unfold unsubscribeConn
  simp [h, hne]

theorem unsubscribeConn_none_some {c : SocketConnection} {event : String} {s : List Nat}
    (h : lookupKey c.listeners event = some s) :
    unsubscribeConn c event none =
      { c with listeners := mapDelete c.listeners event
               socket := { c.socket with wire := c.socket.wire.filter (fun e => e != event) } } := by
  unfold unsubscribeConn
  simp [h]

theorem unsubscribeConn_absent {c : SocketConnection} {event : String} (oc : Option Nat)
    (h : lookupKey c.listeners event = none) : unsubscribeConn c event oc = c := by
  unfold unsubscribeConn
  cases oc <;> simp [h]

/-! ### Preservation of the registry invariant -/

theorem Inv_subscribeConn {c : SocketConnection} (event : String) (cb : Nat) (h : Inv c) :
    Inv (subscribeConn c event cb) := by
  obtain ⟨h1, h2, h3, h4⟩ := h
  cases hl : lookupKey c.listeners event with
  | some s =>
    rw [subscribeConn_of_some cb hl]
    refine ⟨keysNodup_mapSet _ h1, h2, ?_, ?_⟩
    · intro e he
      by_cases hek : e = event
      · subst hek; rw [lookupKey_mapSet_self]; rfl
      · rw [lookupKey_mapSet_ne _ _ hek]; exact h3 e he
    · intro p hp
      rcases mem_mapSet hp with hp' | hp'
      · subst hp'
        obtain ⟨hw, _, hnd⟩ := h4 (event, s) (mem_of_lookupKey hl)
        exact ⟨hw, setAdd_ne_nil _ _, setAdd_nodup _ hnd⟩
      · exact h4 p hp'
  | none =>
    rw [subscribeConn_of_none cb hl]
    have hwire : event ∉ c.socket.wire := by
      intro hw
      have hs := h3 event hw
      rw [hl] at hs
      simp at hs
    refine ⟨keysNodup_mapSet _ h1, nodup_append_singleton h2 hwire, ?_, ?_⟩
    · intro e he
      rcases List.mem_append.mp he with he' | he'
      · by_cases hek : e = event
        · subst hek; rw [lookupKey_mapSet_self]; rfl
        · rw [lookupKey_mapSet_ne _ _ hek]; exact h3 e he'
      · rw [List.mem_singleton] at he'
        subst he'
        rw [lookupKey_mapSet_self]; rfl
    · intro p hp
      rcases mem_mapSet hp with hp' | hp'
      · subst hp'
        exact ⟨List.mem_append.mpr (Or.inr (List.mem_singleton.mpr rfl)), by simp, by simp⟩
      · obtain ⟨hw, hne, hnd⟩ := h4 p hp'
        exact ⟨List.mem_append.mpr (Or.inl hw), hne, hnd⟩

theorem Inv_removeEvent {c : SocketConnection} (event : String) (h : Inv c) :
    Inv { c with listeners := mapDelete c.listeners event
                 socket := { c.socket with
                             wire := c.socket.wire.filter (fun e => e != event) } } := by
  obtain ⟨h1, h2, h3, h4⟩ := h
  refine ⟨keysNodup_mapDelete _ h1, List.Nodup.filter _ h2, ?_, ?_⟩
  · intro e he
    rw [List.mem_filter] at he
    have hne : e ≠ event := by simpa using he.2
    rw [lookupKey_mapDelete_ne _ hne]
    exact h3 e he.1
  · intro p hp
    obtain ⟨hmem, hne⟩ := mem_mapDelete_of_keysNodup h1 hp
    obtain ⟨hw, hne', hnd⟩ := h4 p hmem
    exact ⟨List.mem_filter.mpr ⟨hw, by simpa using hne⟩, hne', hnd⟩

theorem Inv_unsubscribeConn {c : SocketConnection} (event : String) (oc : Option Nat)
    (h : Inv c) : Inv (unsubscribeConn c event oc) := by
  cases oc with
  | none =>
    cases hl : lookupKey c.listeners event with
    | some s => rw [unsubscribeConn_none_some hl]; exact Inv_removeEvent event h
    | none => rw [unsubscribeConn_absent _ hl]; exact h
  | some cb =>
    cases hl : lookupKey c.listeners event with
    | none => rw [unsubscribeConn_absent _ hl]; exact h
    | some s =>
      by_cases hlen : (s.erase cb).length = 0
      · rw [unsubscribeConn_cb_empty hl hlen]; exact Inv_removeEvent event h
      · rw [unsubscribeConn_cb_keep hl hlen]
        obtain ⟨h1, h2, h3, h4⟩ := h
        refine ⟨keysNodup_mapSet _ h1, h2, ?_, ?_⟩
        · intro e he
          by_cases hek : e = event
          · subst hek; rw [lookupKey_mapSet_self]; rfl
          · rw [lookupKey_mapSet_ne _ _ hek]; exact h3 e he
        · intro p hp
          rcases mem_mapSet hp with hp' | hp'
          · subst hp'
            obtain ⟨hw, _, hnd⟩ := h4 (event, s) (mem_of_lookupKey hl)
            refine ⟨hw, ?_, List.Nodup.sublist (List.erase_sublist cb s) hnd⟩
            intro hnil
            have hnil' : s.erase cb = [] := hnil
            exact hlen (by rw [hnil']; rfl)
          · exact h4 p hp'

theorem iterateConnectErrors_succ (n : Nat) (m : SocketManager) (c : SocketConnection) :
    iterateConnectErrors (n + 1) (m, c) = iterateConnectErrors n (connectErrorStep m c) := rfl

theorem iterateConnectErrors_zero (p : SocketManager × SocketConnection) :
    iterateConnectErrors 0 p = p := rfl

/-! ### Claim theorems -/

/-- C4: on any connection satisfying the registry invariant, `subscribe(e, cb)`
followed by `subscribe(e, cb2)` issues no second `socket.on` registration
(the wire-listener list is unchanged by the second subscribe), leaves exactly
one wire-level listener for `e`, and a message delivered on `e` invokes both
`cb` and `cb2` (each registered callback at least once) without raising. -/
theorem secondSubscribeSharesWireListener (c : SocketConnection) (e : String) (cb cb2 : Nat)
    (h : Inv c) :
    (subscribeConn (subscribeConn c e cb) e cb2).socket.wire =
      (subscribeConn c e cb).socket.wire ∧
    (subscribeConn (subscribeConn c e cb) e cb2).socket.wire.count e = 1 ∧
    cb ∈ (deliver (fun _ => false) (subscribeConn (subscribeConn c e cb) e cb2) e).1 ∧
    cb2 ∈ (deliver (fun _ => false) (subscribeConn (subscribeConn c e cb) e cb2) e).1 ∧
    (deliver (fun _ => false) (subscribeConn (subscribeConn c e cb) e cb2) e).2 = false := by
  obtain ⟨h1, h2, h3, h4⟩ := h
  have hfan : ∀ t : List Nat, fanOut (fun _ => false) t = (t, false) :=
    fun t => fanOut_of_noThrow (fun x _ => rfl)
  cases hl : lookupKey c.listeners e with
  | some s =>
    have hmemp := mem_of_lookupKey hl
    have hw : e ∈ c.socket.wire := (h4 (e, s) hmemp).1
    rw [subscribeConn_of_some cb hl,
      subscribeConn_of_some cb2 (lookupKey_mapSet_self c.listeners e (setAdd s cb))]
    refine ⟨rfl, List.count_eq_one_of_mem h2 hw, ?_, ?_, ?_⟩
    · unfold deliver
      rw [if_pos hw, mapSet_mapSet, lookupKey_mapSet_self]
      simp only [hfan]
      exact mem_setAdd_iff.mpr (Or.inl (mem_setAdd_self s cb))
    · unfold deliver
      rw [if_pos hw, mapSet_mapSet, lookupKey_mapSet_self]
      simp only [hfan]
      exact mem_setAdd_self _ cb2
    · unfold deliver
      rw [if_pos hw, mapSet_mapSet, lookupKey_mapSet_self]
      simp only [hfan]
  | none =>
    have hwn : e ∉ c.socket.wire := by
      intro hw
      have hs := h3 e hw
      rw [hl] at hs
      simp at hs
    rw [subscribeConn_of_none cb hl,
      subscribeConn_of_some cb2 (lookupKey_mapSet_self c.listeners e [cb])]
    have hmem : e ∈ c.socket.wire ++ [e] :=
      List.mem_append.mpr (Or.inr (List.mem_singleton.mpr rfl))
    refine ⟨rfl, ?_, ?_, ?_, ?_⟩
    · show (c.socket.wire ++ [e]).count e = 1
      rw [List.count_append, List.count_eq_zero_of_not_mem hwn]
      simp
    · unfold deliver
      rw [if_pos hmem, mapSet_mapSet, lookupKey_mapSet_self]
      simp only [hfan]
      exact mem_setAdd_iff.mpr (Or.inl (by simp))
    · unfold deliver
      rw [if_pos hmem, mapSet_mapSet, lookupKey_mapSet_self]
      simp only [hfan]
      exact mem_setAdd_self _ cb2
    · unfold deliver
      rw [if_pos hmem, mapSet_mapSet, lookupKey_mapSet_self]
      simp only [hfan]

/-- Witness for C4 at the fresh connection `recFresh` with callbacks 1 and 2
on event ev. -/
theorem secondSubscribeSharesWireListener_witness :
    Inv recFresh ∧
    ((subscribeConn (subscribeConn recFresh "ev" 1) "ev" 2).socket.wire =
        (subscribeConn recFresh "ev" 1).socket.wire ∧
      (subscribeConn (subscribeConn recFresh "ev" 1) "ev" 2).socket.wire.count "ev" = 1 ∧
      1 ∈ (deliver (fun _ => false) (subscribeConn (subscribeConn recFresh "ev" 1) "ev" 2) "ev").1 ∧
      2 ∈ (deliver (fun _ => false) (subscribeConn (subscribeConn recFresh "ev" 1) "ev" 2) "ev").1 ∧
      (deliver (fun _ => false) (subscribeConn (subscribeConn recFresh "ev" 1) "ev" 2) "ev").2 =
        false) :=
  ⟨by decide, secondSubscribeSharesWireListener recFresh "ev" 1 2 (by decide)⟩

/-- C5: the registry invariant — a wire-level listener for an event exists
exactly when the event's callback set is non-empty — is preserved by every
subscribe and unsubscribe; moreover an unsubscribe that empties the set
(and an unsubscribe with no callback) removes both the map entry and the
wire-level listener. -/
theorem registryWireInvariantPreserved (c d : SocketConnection) (e : String) (cb : Nat)
    (oc : Option Nat) (s : List Nat)
    (hc : Inv c) (hd : Inv d)
    (hs : lookupKey d.listeners e = some s) (hemp : s.erase cb = []) :
    Inv (subscribeConn c e cb) ∧
    Inv (unsubscribeConn c e oc) ∧
    lookupKey (unsubscribeConn d e (some cb)).listeners e = none ∧
    e ∉ (unsubscribeConn d e (some cb)).socket.wire ∧
    lookupKey (unsubscribeConn d e none).listeners e = none ∧
    e ∉ (unsubscribeConn d e none).socket.wire := by
  obtain ⟨hd1, hd2, hd3, hd4⟩ := hd
  have hlen : (s.erase cb).length = 0 := by rw [hemp]; rfl
  refine ⟨Inv_subscribeConn e cb hc, Inv_unsubscribeConn e oc hc, ?_, ?_, ?_, ?_⟩
  · rw [unsubscribeConn_cb_empty hs hlen]
    exact lookupKey_mapDelete_self hd1
  · rw [unsubscribeConn_cb_empty hs hlen]
    intro hmem
    rw [List.mem_filter] at hmem
    simp at hmem
  · rw [unsubscribeConn_none_some hs]
    exact lookupKey_mapDelete_self hd1
  · rw [unsubscribeConn_none_some hs]
    intro hmem
    rw [List.mem_filter] at hmem
    simp at hmem

/-- Witness for C5 at the fresh connection and its one-subscription state
`recOneSub` (event ev, callback 5, whose removal empties the set). -/
theorem registryWireInvariantPreserved_witness :
    (Inv recFresh ∧ Inv recOneSub ∧
      lookupKey recOneSub.listeners "ev" = some [5] ∧ ([5] : List Nat).erase 5 = []) ∧
    (Inv (subscribeConn recFresh "ev" 5) ∧
      Inv (unsubscribeConn recFresh "ev" none) ∧
      lookupKey (unsubscribeConn recOneSub "ev" (some 5)).listeners "ev" = none ∧
      "ev" ∉ (unsubscribeConn recOneSub "ev" (some 5)).socket.wire ∧
      lookupKey (unsubscribeConn recOneSub "ev" none).listeners "ev" = none ∧
      "ev" ∉ (unsubscribeConn recOneSub "ev" none).socket.wire) :=
  ⟨⟨by decide, by decide, by decide, by decide⟩,
    registryWireInvariantPreserved recFresh recOneSub "ev" 5 none [5]
      (by decide) (by decide) (by decide) (by decide)⟩

/-- Counterexample to C6: on `recFan` (callbacks 1 and 2 registered for ev,
in that order), delivering a message when callback 1 throws invokes only
callback 1 — callback 2, still registered for the same event, is not
invoked, so a throwing callback does prevent delivery to the remaining
callbacks. -/
theorem throwingCallbackStopsFanOut_cex :
    lookupKey recFan.listeners "ev" = some [1, 2] ∧
    deliver (fun n => n == 1) recFan "ev" = ([1], true) ∧
    ¬ ((2 : Nat) ∈ (deliver (fun n => n == 1) recFan "ev").1) := by decide

/-- C6 amended: the fan-out loop does not isolate callback errors — when a
message is delivered and the first throwing callback sits after prefix `s1`
of the event's set, exactly the callbacks of `s1` and the throwing one are
invoked, the callbacks after it are skipped, and the exception escapes the
loop; delivery never mutates the pool, so the connection is not torn down.
(Handlers registered through the repository's FiveM adapter are individually
wrapped in try/catch and so never throw.) -/
theorem fanOutInvokesUpToThrow (m : SocketManager) (key : String) (throws : Nat → Bool)
    (c : SocketConnection) (e : String) (s1 s2 : List Nat) (bad : Nat)
    (h1 : ∀ x ∈ s1, throws x = false) (h2 : throws bad = true)
    (hw : e ∈ c.socket.wire) (hl : lookupKey c.listeners e = some (s1 ++ bad :: s2)) :
    deliver throws c e = (s1 ++ [bad], true) ∧
    (deliverEvent throws m key e).1 = m := by
  constructor
  · unfold deliver
    rw [if_pos hw, hl]
    exact fanOut_stops_at_throw s2 h2 h1
  · unfold deliverEvent
    cases lookupKey m.connections key <;> rfl

/-- Witness for C6's amended statement on `recFan`: callback 1 throws first,
so only callback 1 runs and callback 3 never would (set here is 1 then 2). -/
theorem fanOutInvokesUpToThrow_witness :
    ((∀ x ∈ ([] : List Nat), (fun n => n == 1) x = false) ∧
      ((fun n => n == 1) 1 : Bool) = true ∧
      "ev" ∈ recFan.socket.wire ∧
      lookupKey recFan.listeners "ev" = some ([] ++ 1 :: [2])) ∧
    (deliver (fun n => n == 1) recFan "ev" = ([] ++ [1], true) ∧
      (deliverEvent (fun n => n == 1) SocketManager.empty "k" "ev").1 = SocketManager.empty) :=
  ⟨⟨by decide, by decide, by decide, by decide⟩,
    fanOutInvokesUpToThrow SocketManager.empty "k" (fun n => n == 1) recFan "ev" [] [2] 1
      (by decide) (by decide) (by decide) (by decide)⟩

/-- C8: for a key with no pool record, `unsubscribe` and `disconnect` return
without error and change nothing, the adapter's disconnect export reports
the non-error nothing-to-disconnect outcome, and unsubscribing an event with
no entry on an existing connection is likewise a no-op. -/
theorem missingKeyOperationsAreNoops (m : SocketManager) (url nsp event : String)
    (oc : Option Nat) (options : Option SocketOptions) (c : SocketConnection)
    (h : lookupKey m.connections (getConnectionKey url nsp) = none)
    (hc : lookupKey c.listeners event = none) :
    unsubscribe m url nsp event oc options = m ∧
    disconnect m url nsp = m ∧
    socketDisconnectExport m url nsp =
      (m, { success := true, message := some "No active connection found to disconnect" }) ∧
    unsubscribeConn c event oc = c := by
  refine ⟨?_, ?_, ?_, unsubscribeConn_absent oc hc⟩
  · simp [unsubscribe, h]
  · simp [disconnect, h]
  · simp [socketDisconnectExport, h]

/-- Witness for C8 on the empty pool and the fresh connection (which has no
entry for event ev2). -/
theorem missingKeyOperationsAreNoops_witness :
    (lookupKey SocketManager.empty.connections (getConnectionKey "u" "/") = none ∧
      lookupKey recFresh.listeners "ev2" = none) ∧
    (unsubscribe SocketManager.empty "u" "/" "ev2" none none = SocketManager.empty ∧
      disconnect SocketManager.empty "u" "/" = SocketManager.empty ∧
      socketDisconnectExport SocketManager.empty "u" "/" =
        (SocketManager.empty,
          { success := true, message := some "No active connection found to disconnect" }) ∧
      unsubscribeConn recFresh "ev2" none = recFresh) :=
  ⟨⟨by decide, by decide⟩,
    missingKeyOperationsAreNoops SocketManager.empty "u" "/" "ev2" none none recFresh
      (by decide) (by decide)⟩

/-- C9: the pool key is the plain concatenation url ++ namespace, which is
not injective — the distinct pairs (http://h/a, /b) and (http://h, /a/b)
share one key, so a subscribe addressed to the second pair mutates the
record registered for the first pair (observed here through its listener
set gaining callback 7). -/
theorem connectionKeyCollision :
    ("http://h/a", "/b") ≠ ("http://h", "/a/b") ∧
    getConnectionKey "http://h/a" "/b" = getConnectionKey "http://h" "/a/b" ∧
    lookupKey poolAmbig.connections (getConnectionKey "http://h/a" "/b") = some recAmbig ∧
    lookupKey (subscribe poolAmbig "http://h" "/a/b" "ev" 7 none
        HandshakeSignal.silent).1.connections (getConnectionKey "http://h/a" "/b") =
      some { recAmbig with
             listeners := [("ev", [7])]
             socket := { recAmbig.socket with wire := ["ev"] } } := by decide

/-- C10: subscribe is idempotent in the callback — repeating
`subscribe(e, cb)` leaves the registry in exactly the state of a single
call, with `cb` appearing once in the event's set and exactly one
wire-level listener for the event. -/
theorem subscribeIdempotentPerCallback (c : SocketConnection) (e : String) (cb : Nat)
    (h : Inv c) :
    subscribeConn (subscribeConn c e cb) e cb = subscribeConn c e cb ∧
    (lookupKey (subscribeConn c e cb).listeners e).map (fun s => s.count cb) = some 1 ∧
    (subscribeConn c e cb).socket.wire.count e = 1 := by
  obtain ⟨h1, h2, h3, h4⟩ := h
  cases hl : lookupKey c.listeners e with
  | some s =>
    have hmemp := mem_of_lookupKey hl
    have hw : e ∈ c.socket.wire := (h4 (e, s) hmemp).1
    have hnd : s.Nodup := (h4 (e, s) hmemp).2.2
    rw [subscribeConn_of_some cb hl]
    have hl1 : lookupKey (mapSet c.listeners e (setAdd s cb)) e = some (setAdd s cb) :=
      lookupKey_mapSet_self _ _ _
    refine ⟨?_, ?_, List.count_eq_one_of_mem h2 hw⟩
    · rw [subscribeConn_of_some cb hl1, setAdd_of_mem (mem_setAdd_self s cb),
        mapSet_of_lookupKey_self hl1]
    · show (lookupKey (mapSet c.listeners e (setAdd s cb)) e).map (fun s => s.count cb) = some 1
      rw [hl1]
      have : (setAdd s cb).count cb = 1 :=
        List.count_eq_one_of_mem (setAdd_nodup cb hnd) (mem_setAdd_self s cb)
      simp [this]
  | none =>
    have hwn : e ∉ c.socket.wire := by
      intro hw
      have hs := h3 e hw
      rw [hl] at hs
      simp at hs
    rw [subscribeConn_of_none cb hl]
    have hl1 : lookupKey (mapSet c.listeners e [cb]) e = some [cb] :=
      lookupKey_mapSet_self _ _ _
    refine ⟨?_, ?_, ?_⟩
    · rw [subscribeConn_of_some cb hl1, setAdd_of_mem (by simp), mapSet_of_lookupKey_self hl1]
    · show (lookupKey (mapSet c.listeners e [cb]) e).map (fun s => s.count cb) = some 1
      rw [hl1]
      simp
    · show (c.socket.wire ++ [e]).count e = 1
      rw [List.count_append, List.count_eq_zero_of_not_mem hwn]
      simp

/-- Witness for C10 at the fresh connection with callback 1 on event ev. -/
theorem subscribeIdempotentPerCallback_witness :
    Inv recFresh ∧
    (subscribeConn (subscribeConn recFresh "ev" 1) "ev" 1 = subscribeConn recFresh "ev" 1 ∧
      (lookupKey (subscribeConn recFresh "ev" 1).listeners "ev").map
        (fun s => s.count 1) = some 1 ∧
      (subscribeConn recFresh "ev" 1).socket.wire.count "ev" = 1) :=
  ⟨by decide, subscribeIdempotentPerCallback recFresh "ev" 1 (by decide)⟩

/-- Counterexample to C1: with a per-call reconnection attempt limit of 1,
the claim says that after 1 consecutive connect error the record is
forcibly closed and removed; instead the `connect_error` handler tests the
counter against `defaultOptions.reconnectionAttempts` (3), so the record —
whose socket was created with the per-call limit 1 — stays in the pool with
its counter at 1 and its socket open. -/
theorem perCallLimitIgnored_cex :
    lookupKey poolLimitOne.connections "http://h/" = some recLimitOne ∧
    recLimitOne.socket.opts.reconnectionAttempts = some 1 ∧
    recLimitOne.reconnectAttempts = 0 ∧
    lookupKey (connectErrorStep poolLimitOne recLimitOne).1.connections "http://h/" =
      some { recLimitOne with reconnectAttempts := 1 } ∧
    (connectErrorStep poolLimitOne recLimitOne).2.socket.closed = false := by decide

/-- C1 amended: the eviction threshold is `defaultOptions.reconnectionAttempts`
(3) regardless of the per-call options (which reach only the underlying
client): after 3 consecutive connect errors on a pooled record with no
intervening successful connect, the record's socket is forcibly closed and
its key deleted from the pool, and a subsequent connect for that key stores
a fresh record whose attempt counter is 0. -/
theorem evictionAfterDefaultAttempts (m : SocketManager) (conn : SocketConnection)
    (opts : Option SocketOptions)
    (hn : keysNodup m.connections)
    (h0 : conn.reconnectAttempts = 0)
    (hm : lookupKey m.connections (getConnectionKey conn.url conn.nsp) = some conn) :
    maxReconnectThreshold = 3 ∧
    lookupKey (iterateConnectErrors 3 (m, conn)).1.connections
      (getConnectionKey conn.url conn.nsp) = none ∧
    (iterateConnectErrors 3 (m, conn)).2.socket.closed = true ∧
    (iterateConnectErrors 3 (m, conn)).2.reconnectAttempts = 3 ∧
    (lookupKey (connect (iterateConnectErrors 3 (m, conn)).1 conn.url conn.nsp opts
        HandshakeSignal.silent).1.connections
      (getConnectionKey conn.url conn.nsp)).map (fun r => r.reconnectAttempts) = some 0 := by
  obtain ⟨sock, url, nsp, ra, cf, ls⟩ := conn
  have h0' : ra = 0 := h0
  subst h0'
  dsimp only at hm ⊢
  have hm' : lookupKey m.connections (getConnectionKey url nsp) =
      some ⟨sock, url, nsp, 0, cf, ls⟩ := hm
  have e1 : connectErrorStep m ⟨sock, url, nsp, 0, cf, ls⟩ =
      ({ m with connections := (mapSet m.connections (getConnectionKey url nsp)
          ⟨sock, url, nsp, 1, false, ls⟩) },
       ⟨sock, url, nsp, 1, false, ls⟩) := by
    simp [connectErrorStep, maxReconnectThreshold, orThree, defaultOptions, hm']
  have e2 : connectErrorStep
      ({ m with connections := (mapSet m.connections (getConnectionKey url nsp)
          ⟨sock, url, nsp, 1, false, ls⟩) } : SocketManager)
      ⟨sock, url, nsp, 1, false, ls⟩ =
      ({ m with connections := (mapSet (mapSet m.connections (getConnectionKey url nsp)
            ⟨sock, url, nsp, 1, false, ls⟩) (getConnectionKey url nsp)
          ⟨sock, url, nsp, 2, false, ls⟩) },
       ⟨sock, url, nsp, 2, false, ls⟩) := by
    simp [connectErrorStep, maxReconnectThreshold, orThree, defaultOptions,
      lookupKey_mapSet_self]
  have e3 : connectErrorStep
      ({ m with connections := (mapSet (mapSet m.connections (getConnectionKey url nsp)
            ⟨sock, url, nsp, 1, false, ls⟩) (getConnectionKey url nsp)
          ⟨sock, url, nsp, 2, false, ls⟩) } : SocketManager)
      ⟨sock, url, nsp, 2, false, ls⟩ =
      ({ m with connections := (mapDelete (mapSet (mapSet m.connections
            (getConnectionKey url nsp) ⟨sock, url, nsp, 1, false, ls⟩)
            (getConnectionKey url nsp) ⟨sock, url, nsp, 2, false, ls⟩)
          (getConnectionKey url nsp)) },
       ⟨{ sock with closed := true }, url, nsp, 3, false, ls⟩) := by
    simp [connectErrorStep, maxReconnectThreshold, orThree, defaultOptions]
  rw [iterateConnectErrors_succ, e1, iterateConnectErrors_succ, e2,
    iterateConnectErrors_succ, e3, iterateConnectErrors_zero]
  have hnone : lookupKey (mapDelete (mapSet (mapSet m.connections
      (getConnectionKey url nsp) ⟨sock, url, nsp, 1, false, ls⟩)
      (getConnectionKey url nsp) ⟨sock, url, nsp, 2, false, ls⟩)
      (getConnectionKey url nsp)) (getConnectionKey url nsp) = none := by
    rw [mapDelete_mapSet, mapDelete_mapSet]
    exact lookupKey_mapDelete_self hn
  refine ⟨rfl, hnone, rfl, rfl, ?_⟩
  simp [connect, existingConnected, hnone, connectNew, waitForConnection,
    freshConnection, lookupKey_mapSet_self]

/-- Witness for C1's amended statement at the one-record pool `poolFresh`. -/
theorem evictionAfterDefaultAttempts_witness :
    (keysNodup poolFresh.connections ∧ recFresh.reconnectAttempts = 0 ∧
      lookupKey poolFresh.connections (getConnectionKey recFresh.url recFresh.nsp) =
        some recFresh) ∧
    (maxReconnectThreshold = 3 ∧
      lookupKey (iterateConnectErrors 3 (poolFresh, recFresh)).1.connections
        (getConnectionKey recFresh.url recFresh.nsp) = none ∧
      (iterateConnectErrors 3 (poolFresh, recFresh)).2.socket.closed = true ∧
      (iterateConnectErrors 3 (poolFresh, recFresh)).2.reconnectAttempts = 3 ∧
      (lookupKey (connect (iterateConnectErrors 3 (poolFresh, recFresh)).1 recFresh.url
          recFresh.nsp none HandshakeSignal.silent).1.connections
        (getConnectionKey recFresh.url recFresh.nsp)).map
          (fun r => r.reconnectAttempts) = some 0) :=
  ⟨⟨by decide, by decide, by decide⟩,
    evictionAfterDefaultAttempts poolFresh recFresh none (by decide) (by decide) (by decide)⟩

/-- Counterexample to C2: with a per-call timeout of 10000 ms supplied and
the transport handshake completing at 7000 ms — strictly before the claimed
`options.timeout` deadline — `connect` nevertheless fails with the
connection-timeout error, because the guard in `waitForConnection` is armed
with the 5000 ms `defaultOptions.timeout`, not with `options.timeout`. -/
theorem waitDeadlineNotPerCall_cex :
    optsBigTimeout.timeout = some 10000 ∧
    7000 < 10000 ∧
    waitDeadlineMs = 5000 ∧
    (connect SocketManager.empty "http://h" "/" (some optsBigTimeout)
        (HandshakeSignal.connectAt 7000)).2 =
      Except.error (SocketError.connectTimeout "http://h/") := by decide

/-- C2 amended: for a call that finds no already-connected record, the
handshake wait is bounded by the fixed `defaultOptions.timeout` deadline of
5000 ms regardless of the per-call options (whose timeout is forwarded only
to the underlying client): a handshake strictly before that deadline
succeeds with a connected record, while a handshake at or after the
deadline — or none at all — makes the call fail with the connection-timeout
error rather than hanging. -/
theorem connectWaitBoundedByDefaultDeadline (m : SocketManager) (url nsp : String)
    (opts : Option SocketOptions) (t1 t2 : Nat)
    (hnoconn : existingConnected m (getConnectionKey url nsp) = none)
    (ht1 : t1 < waitDeadlineMs) (ht2 : waitDeadlineMs ≤ t2) :
    waitDeadlineMs = 5000 ∧
    ((connect m url nsp opts (HandshakeSignal.connectAt t1)).2.toOption.map
        (fun r => r.connected)) = some true ∧
    ((connect m url nsp opts (HandshakeSignal.connectAt t1)).2.toOption.map
        (fun r => r.socket.opts.timeout)) = some (mergeOptions defaultOptions opts).timeout ∧
    (connect m url nsp opts (HandshakeSignal.connectAt t2)).2 =
      Except.error (SocketError.connectTimeout (getConnectionKey url nsp)) ∧
    (connect m url nsp opts HandshakeSignal.silent).2 =
      Except.error (SocketError.connectTimeout (getConnectionKey url nsp)) := by
  have hnlt : ¬ (t2 < waitDeadlineMs) := not_lt.mpr ht2
  refine ⟨rfl, ?_, ?_, ?_, ?_⟩ <;>
    simp [connect, hnoconn, connectNew, waitForConnection, freshConnection, onConnect,
      ioOptions, ht1, hnlt]
  · exact ⟨_, rfl, rfl⟩
  · exact ⟨_, rfl, rfl⟩

/-- Witness for C2's amended statement on the empty pool with a 10000 ms
per-call timeout, a handshake at 0 ms and one at 7000 ms. -/
theorem connectWaitBoundedByDefaultDeadline_witness :
    (existingConnected SocketManager.empty (getConnectionKey "http://h" "/") = none ∧
      0 < waitDeadlineMs ∧ waitDeadlineMs ≤ 7000) ∧
    (waitDeadlineMs = 5000 ∧
      ((connect SocketManager.empty "http://h" "/" (some optsBigTimeout)
          (HandshakeSignal.connectAt 0)).2.toOption.map (fun r => r.connected)) = some true ∧
      ((connect SocketManager.empty "http://h" "/" (some optsBigTimeout)
          (HandshakeSignal.connectAt 0)).2.toOption.map (fun r => r.socket.opts.timeout)) =
        some (mergeOptions defaultOptions (some optsBigTimeout)).timeout ∧
      (connect SocketManager.empty "http://h" "/" (some optsBigTimeout)
          (HandshakeSignal.connectAt 7000)).2 =
        Except.error (SocketError.connectTimeout (getConnectionKey "http://h" "/")) ∧
      (connect SocketManager.empty "http://h" "/" (some optsBigTimeout)
          HandshakeSignal.silent).2 =
        Except.error (SocketError.connectTimeout (getConnectionKey "http://h" "/"))) :=
  ⟨⟨by decide, by decide, by decide⟩,
    connectWaitBoundedByDefaultDeadline SocketManager.empty "http://h" "/"
      (some optsBigTimeout) 0 7000 (by decide) (by decide) (by decide)⟩

/-- Counterexample to C3: the pool holds a record for the key whose
connected flag is false (with a registered listener); `getOrCreateConnection`
does not return that record — it allocates a second socket handle (fresh
id 1), builds a fresh record with an empty listener map, overwrites the
pool entry and returns the replacement. -/
theorem getOrCreateReplacesDisconnected_cex :
    lookupKey poolStale.connections "http://h/" = some recStale ∧
    recStale.connected = false ∧
    recStale.listeners = [("ev", [7])] ∧
    (getOrCreateConnection poolStale "http://h" "/" none (HandshakeSignal.connectAt 0)).2 =
      Except.ok recReplacement ∧
    recReplacement ≠ recStale ∧
    recReplacement.socket.sid = 1 ∧
    recStale.socket.sid = 0 ∧
    recReplacement.listeners = [] ∧
    lookupKey (getOrCreateConnection poolStale "http://h" "/" none
        (HandshakeSignal.connectAt 0)).1.connections "http://h/" = some recReplacement ∧
    (getOrCreateConnection poolStale "http://h" "/" none
        (HandshakeSignal.connectAt 0)).1.nextSocketId = 2 := by decide

/-- C3 amended: the get-or-create path reuses the pool entry exactly when
its connected flag is true (returning it with the pool untouched); when the
entry exists but is not connected, it allocates a new socket handle and
stores a fresh record (attempt counter 0, empty listener map) over the same
key, dropping the old record from the pool. -/
theorem getOrCreateReusesOnlyConnected (m1 m2 : SocketManager) (u1 n1 u2 n2 : String)
    (opts : Option SocketOptions) (sig : HandshakeSignal) (ex1 ex2 : SocketConnection)
    (h1 : lookupKey m1.connections (getConnectionKey u1 n1) = some ex1)
    (hc1 : ex1.connected = true)
    (h2 : lookupKey m2.connections (getConnectionKey u2 n2) = some ex2)
    (hc2 : ex2.connected = false) :
    getOrCreateConnection m1 u1 n1 opts sig = (m1, Except.ok ex1) ∧
    lookupKey (getOrCreateConnection m2 u2 n2 opts HandshakeSignal.silent).1.connections
        (getConnectionKey u2 n2) =
      some (freshConnection m2.nextSocketId u2 n2
        (ioOptions (mergeOptions defaultOptions opts))) ∧
    (freshConnection m2.nextSocketId u2 n2
        (ioOptions (mergeOptions defaultOptions opts))).reconnectAttempts = 0 ∧
    (freshConnection m2.nextSocketId u2 n2
        (ioOptions (mergeOptions defaultOptions opts))).listeners = [] ∧
    (getOrCreateConnection m2 u2 n2 opts HandshakeSignal.silent).1.nextSocketId =
      m2.nextSocketId + 1 := by
  refine ⟨?_, ?_, rfl, rfl, ?_⟩
  · simp [getOrCreateConnection, existingConnected, h1, hc1]
  · simp [getOrCreateConnection, existingConnected, h2, hc2, connect, connectNew,
      waitForConnection, freshConnection, lookupKey_mapSet_self]
  · simp [getOrCreateConnection, existingConnected, h2, hc2, connect, connectNew,
      waitForConnection, freshConnection]

/-- Witness for C3's amended statement: a connected record is reused as is;
the stale disconnected record of `poolStale` is replaced by a fresh one. -/
theorem getOrCreateReusesOnlyConnected_witness :
    (lookupKey poolLive.connections (getConnectionKey "u" "/") = some recLive ∧
      recLive.connected = true ∧
      lookupKey poolStale.connections (getConnectionKey "http://h" "/") = some recStale ∧
      recStale.connected = false) ∧
    (getOrCreateConnection poolLive "u" "/" none HandshakeSignal.silent =
        (poolLive, Except.ok recLive) ∧
      lookupKey (getOrCreateConnection poolStale "http://h" "/" none
          HandshakeSignal.silent).1.connections (getConnectionKey "http://h" "/") =
        some (freshConnection poolStale.nextSocketId "http://h" "/"
          (ioOptions (mergeOptions defaultOptions none))) ∧
      (freshConnection poolStale.nextSocketId "http://h" "/"
          (ioOptions (mergeOptions defaultOptions none))).reconnectAttempts = 0 ∧
      (freshConnection poolStale.nextSocketId "http://h" "/"
          (ioOptions (mergeOptions defaultOptions none))).listeners = [] ∧
      (getOrCreateConnection poolStale "http://h" "/" none
          HandshakeSignal.silent).1.nextSocketId = poolStale.nextSocketId + 1) :=
  ⟨⟨by decide, by decide, by decide, by decide⟩,
    getOrCreateReusesOnlyConnected poolLive poolStale "u" "/" "http://h" "/" none
      HandshakeSignal.silent recLive recStale (by decide) (by decide) (by decide) (by decide)⟩

/-- C7: at send time `publish` branches on the resolved record's connected
flag: when a wire-level disconnect arrives between the awaited resolution
and the send, the flag is false and the call fails with the not-connected
error while the record's emitted list is unchanged (the payload never
reaches the transport); when the flag is still true the payload is handed
to the transport via `socket.emit` and the call returns at once — the model
consumes no acknowledgement from the remote side. -/
theorem publishRequiresConnectedAtSend (m m' : SocketManager) (url nsp event : String)
    (data : Nat) (options : Option SocketOptions) (signal : HandshakeSignal)
    (conn : SocketConnection)
    (h : getOrCreateConnection m url nsp options signal = (m', Except.ok conn))
    (hconn : conn.connected = true) :
    (publish m url nsp event data options signal true).2 =
      Except.error (SocketError.notConnected (getConnectionKey url nsp)) ∧
    (lookupKey (publish m url nsp event data options signal true).1.connections
        (getConnectionKey url nsp)).map (fun r => r.socket.emitted) =
      some conn.socket.emitted ∧
    (publish m url nsp event data options signal false).2 = Except.ok () ∧
    (lookupKey (publish m url nsp event data options signal false).1.connections
        (getConnectionKey url nsp)).map (fun r => r.socket.emitted) =
      some (conn.socket.emitted ++ [(event, data)]) := by
  refine ⟨?_, ?_, ?_, ?_⟩ <;>
    simp [publish, h, sendOnConnection, onDisconnect, hconn, lookupKey_mapSet_self]

/-- Witness for C7 at the one-record pool `poolLive` whose record is
connected, with payload 42 on event ev. -/
theorem publishRequiresConnectedAtSend_witness :
    (getOrCreateConnection poolLive "u" "/" none HandshakeSignal.silent =
        (poolLive, Except.ok recLive) ∧
      recLive.connected = true) ∧
    ((publish poolLive "u" "/" "ev" 42 none HandshakeSignal.silent true).2 =
        Except.error (SocketError.notConnected (getConnectionKey "u" "/")) ∧
      (lookupKey (publish poolLive "u" "/" "ev" 42 none HandshakeSignal.silent
          true).1.connections (getConnectionKey "u" "/")).map
        (fun r => r.socket.emitted) = some recLive.socket.emitted ∧
      (publish poolLive "u" "/" "ev" 42 none HandshakeSignal.silent false).2 =
        Except.ok () ∧
      (lookupKey (publish poolLive "u" "/" "ev" 42 none HandshakeSignal.silent
          false).1.connections (getConnectionKey "u" "/")).map
        (fun r => r.socket.emitted) = some (recLive.socket.emitted ++ [("ev", 42)])) :=
  ⟨⟨by decide, by decide⟩,
    publishRequiresConnectedAtSend poolLive poolLive "u" "/" "ev" 42 none
      HandshakeSignal.silent recLive (by decide) (by decide)⟩

end FivemSocket
